import Mathlib

/-!
Verification of the discord-qna-bot repository against its specification.

This file gives a shallow embedding, in Lean 4, of the parts of the
repository that the specification's testable properties talk about:

* the token store (`src/token_storage.py`, `src/auth/token_manager.py`,
  `src/models/token_models.py`): credential records, expiry, latest-token
  selection, deletion, and the on-disk serialization round trip;
* the OAuth callback's credential creation (`src/oauth_server.py`) and the
  authorization-URL construction (`src/api/discord_client.py`,
  `src/client/discord_api.py`);
* the crawler (`src/services/discord_service.py`): per-channel failure
  isolation when fetching messages from all text channels of all guilds;
* the RAG pipeline (`src/services/rag_service.py`,
  `src/rag_llama_index_faiss.py`, `playground/rag_llama_index_faiss.py`,
  `src/core/message_service.py`): message processing, reply-aware document
  text synthesis, thread reconstruction, and lazy index initialization.

Network transport, the embedding model and the vector index are external
collaborators; they are modelled as explicit environment parameters
(result-valued fetch functions, an opaque retrieval function), exactly at
the interface boundary the code uses them through.  Python `datetime`
values are modelled by their component tuple; naive datetimes compare
lexicographically on that tuple, which is how CPython compares them.
-/

namespace DQB

/-- Naive UTC datetime, as the component tuple of a Python `datetime`. -/
structure PyDateTime where
  year : Nat
  month : Nat
  day : Nat
  hour : Nat
  minute : Nat
  second : Nat
  microsecond : Nat
deriving DecidableEq, Repr

/-- The comparison tuple of a datetime: CPython compares naive datetimes
lexicographically on exactly these components, in this order. -/
def PyDateTime.fields (d : PyDateTime) : List Nat :=
  [d.year, d.month, d.day, d.hour, d.minute, d.second, d.microsecond]

/-- Lexicographic strict comparison of component tuples (Python tuple `<`). -/
def lexLt : List Nat → List Nat → Bool
  | [], [] => false
  | [], _ :: _ => true
  | _ :: _, [] => false
  | a :: as, b :: bs => if a < b then true else if b < a then false else lexLt as bs

/-- Lexicographic non-strict comparison of component tuples (Python tuple `<=`). -/
def lexLe : List Nat → List Nat → Bool
  | [], _ => true
  | _ :: _, [] => false
  | a :: as, b :: bs => if a < b then true else if b < a then false else lexLe as bs

/-- Python `a < b` on datetimes. -/
def PyDateTime.ltb (a b : PyDateTime) : Bool := lexLt a.fields b.fields

/-- Python `a <= b` on datetimes. -/
def PyDateTime.leb (a b : PyDateTime) : Bool := lexLe a.fields b.fields

theorem lexLe_refl (l : List Nat) : lexLe l l = true := by
  induction l with
  | nil => rfl
  | cons a as ih => simp [lexLe, ih]

theorem lexLe_of_lexLt {l m : List Nat} (h : lexLt l m = true) : lexLe l m = true := by
  induction l generalizing m with
  | nil => cases m <;> rfl
  | cons a as ih =>
    cases m with
    | nil => simp [lexLt] at h
    | cons b bs =>
      simp only [lexLt, lexLe] at h ⊢
      split at h
      · simp_all
      · split at h
        · exact absurd h (by simp)
        · simp_all [ih h]

theorem lexLe_of_not_lexLt {l m : List Nat} (h : lexLt l m = false) : lexLe m l = true := by
  induction l generalizing m with
  | nil => cases m with
    | nil => rfl
    | cons b bs => simp [lexLt] at h
  | cons a as ih =>
    cases m with
    | nil => rfl
    | cons b bs =>
      simp only [lexLt] at h
      simp only [lexLe]
      split at h
      · simp_all
      · split at h
        · split
          · rfl
          · omega
        · have hab : a = b := by omega
          subst hab
          simp [ih h]

theorem lexLe_trans {l m r : List Nat} (h1 : lexLe l m = true) (h2 : lexLe m r = true) :
    lexLe l r = true := by
  induction l generalizing m r with
  | nil => rfl
  | cons a as ih =>
    cases m with
    | nil => simp [lexLe] at h1
    | cons b bs =>
      cases r with
      | nil => simp [lexLe] at h2
      | cons c cs =>
        simp only [lexLe] at h1 h2 ⊢
        split at h1
        · split at h2
          · simp; omega
          · split at h2
            · exact absurd h2 (by simp)
            · have : b = c := by omega
              simp; omega
        · split at h1
          · exact absurd h1 (by simp)
          · have hab : a = b := by omega
            subst hab
            split at h2
            · simp; omega
            · split at h2
              · exact absurd h2 (by simp)
              · have : a = c := by omega
                subst this
                simp [ih h1 h2]

/-- `TokenData` (src/token_storage.py) = `TokenModel`
(src/models/token_models.py): an OAuth credential record. -/
structure TokenData where
  access_token : String
  token_type : String
  expires_in : Int
  refresh_token : String
  scope : String
  created_at : PyDateTime
  expires_at : Option PyDateTime := none
deriving DecidableEq, Repr

/-- `TokenData.is_expired` / `TokenModel.is_expired`: absent `expires_at` is
expired; otherwise the token is expired when `datetime.utcnow() >= expires_at`.
The `datetime.utcnow()` reading is passed in explicitly as `now`. -/
def TokenData.is_expired (td : TokenData) (now : PyDateTime) : Bool :=
  match td.expires_at with
  | none => true
  | some e => e.leb now

/-- C4.  Expiry predicate: a credential whose `expires_at` is absent, or whose
`expires_at` lies strictly in the past relative to the current time, is always
reported expired by `is_expired`. -/
theorem is_expired_of_absent_or_past (td : TokenData) (now : PyDateTime)
    (h : td.expires_at = none ∨ ∃ e, td.expires_at = some e ∧ e.ltb now = true) :
    td.is_expired now = true := by
  rcases h with h | ⟨e, he, hlt⟩
  · simp [TokenData.is_expired, h]
  · simp [TokenData.is_expired, he, PyDateTime.leb]
    exact lexLe_of_lexLt hlt

/-- C4 witness: a credential that expired one second before `now`, and one
with absent `expires_at`, are both reported expired at a concrete time. -/
theorem is_expired_of_absent_or_past_witness :
    TokenData.is_expired
      { access_token := "a", token_type := "Bearer", expires_in := 3600,
        refresh_token := "r", scope := "identify",
        created_at := ⟨2025, 1, 1, 0, 0, 0, 0⟩,
        expires_at := some ⟨2025, 1, 1, 0, 59, 59, 0⟩ }
      ⟨2025, 1, 1, 1, 0, 0, 0⟩ = true ∧
    TokenData.is_expired
      { access_token := "b", token_type := "Bearer", expires_in := 3600,
        refresh_token := "r", scope := "identify",
        created_at := ⟨2025, 1, 1, 0, 0, 0, 0⟩, expires_at := none }
      ⟨2025, 1, 1, 1, 0, 0, 0⟩ = true := by
  constructor
  · exact is_expired_of_absent_or_past _ _
      (Or.inr ⟨⟨2025, 1, 1, 0, 59, 59, 0⟩, rfl, by decide⟩)
  · exact is_expired_of_absent_or_past _ _ (Or.inl rfl)

/-! ## Token store (src/token_storage.py `TokenStorage`, src/auth/token_manager.py `TokenManager`)

The in-memory store `self._tokens` is a Python dict from token id to
`TokenData`.  A Python dict is insertion-ordered with unique keys, and
assigning to an existing key keeps its position; we model it as an
insertion-ordered association list with `dictInsert` as assignment. -/

/-- Python dict assignment `d[k] = v`: replace in place if the key exists,
otherwise append at the end. -/
def dictInsert {α : Type} (k : String) (v : α) : List (String × α) → List (String × α)
  | [] => [(k, v)]
  | p :: rest => if p.1 = k then (k, v) :: rest else p :: dictInsert k v rest

/-- Python `k in d`. -/
def dictContains {α : Type} (k : String) (d : List (String × α)) : Bool :=
  d.any (fun p => p.1 == k)

/-- Python `max(iterable, key=lambda x: x.created_at)`: CPython scans the
iterable and replaces the current best only on a strictly greater key, so
the first element attaining the maximal key wins. -/
def pyMaxByCreatedAt : TokenData → List TokenData → TokenData
  | best, [] => best
  | best, x :: xs => pyMaxByCreatedAt (if best.created_at.ltb x.created_at then x else best) xs

/-- `TokenStorage.get_latest_token` / `TokenManager.get_latest_token`:
`None` on an empty store, otherwise `max(self._tokens.values(), key=...)`,
where `values()` iterates in insertion order. -/
def get_latest_token (tokens : List (String × TokenData)) : Option TokenData :=
  match tokens.map Prod.snd with
  | [] => none
  | v :: vs => some (pyMaxByCreatedAt v vs)

theorem pyMaxByCreatedAt_spec (xs : List TokenData) (best : TokenData) :
    (pyMaxByCreatedAt best xs = best ∨ pyMaxByCreatedAt best xs ∈ xs) ∧
    best.created_at.leb (pyMaxByCreatedAt best xs).created_at = true ∧
    ∀ x ∈ xs, x.created_at.leb (pyMaxByCreatedAt best xs).created_at = true := by
  induction xs generalizing best with
  | nil => exact ⟨Or.inl rfl, by simp [pyMaxByCreatedAt, PyDateTime.leb, lexLe_refl], by simp⟩
  | cons x xs ih =>
    have step : pyMaxByCreatedAt best (x :: xs)
        = pyMaxByCreatedAt (if best.created_at.ltb x.created_at then x else best) xs := rfl
    by_cases hlt : best.created_at.ltb x.created_at = true
    · have ih2 := ih x
      rw [step, if_pos hlt]
      refine ⟨?_, ?_, ?_⟩
      · rcases ih2.1 with h | h
        · exact Or.inr (by simp [h])
        · exact Or.inr (by simp [h])
      · exact lexLe_trans (lexLe_of_lexLt hlt) ih2.2.1
      · intro y hy
        rw [List.mem_cons] at hy
        rcases hy with rfl | hy
        · exact ih2.2.1
        · exact ih2.2.2 y hy
    · have hle : x.created_at.leb best.created_at = true :=
        lexLe_of_not_lexLt (by simpa [PyDateTime.ltb] using (Bool.not_eq_true _).mp hlt)
      have ih2 := ih best
      rw [step, if_neg hlt]
      refine ⟨?_, ih2.2.1, ?_⟩
      · rcases ih2.1 with h | h
        · exact Or.inl h
        · exact Or.inr (List.mem_cons_of_mem _ h)
      · intro y hy
        rw [List.mem_cons] at hy
        rcases hy with rfl | hy
        · exact lexLe_trans hle ih2.2.1
        · exact ih2.2.2 y hy

/-- C5 (amended).  `get_latest_token` returns `none` on the empty store, and on
a non-empty store returns a stored credential whose `created_at` is maximal
(every stored credential's `created_at` is `<=` its `created_at`); among
equally timestamped credentials the choice is determined by insertion order
(the earliest-inserted maximal entry), not by id ordering. -/
theorem get_latest_token_spec (tokens : List (String × TokenData)) :
    (tokens = [] → get_latest_token tokens = none) ∧
    (tokens ≠ [] → ∃ t, get_latest_token tokens = some t ∧
      t ∈ tokens.map Prod.snd ∧
      ∀ x ∈ tokens.map Prod.snd, x.created_at.leb t.created_at = true) := by
  constructor
  · intro h; subst h; rfl
  · intro h
    match htok : tokens with
    | [] => exact absurd rfl h
    | p :: rest =>
      have hmap : (p :: rest).map Prod.snd = p.2 :: rest.map Prod.snd := rfl
      have spec := pyMaxByCreatedAt_spec (rest.map Prod.snd) p.2
      refine ⟨pyMaxByCreatedAt p.2 (rest.map Prod.snd), ?_, ?_, ?_⟩
      · simp [get_latest_token, hmap]
      · rcases spec.1 with hb | hb
        · rw [hmap, hb]; exact List.mem_cons_self _ _
        · rw [hmap]; exact List.mem_cons_of_mem _ hb
      · intro x hx
        rw [hmap, List.mem_cons] at hx
        rcases hx with rfl | hx
        · exact spec.2.1
        · exact spec.2.2 x hx

/-- A concrete credential used in witnesses: its access token is `tag` and
its creation instant is `created`. -/
def sampleToken (tag : String) (created : PyDateTime) : TokenData :=
  { access_token := tag, token_type := "Bearer", expires_in := 1,
    refresh_token := "r", scope := "s", created_at := created }

/-- C5 witness: on a concrete two-entry store the selected credential is a
stored one of maximal `created_at`. -/
theorem get_latest_token_spec_witness :
    [("1", sampleToken "a" ⟨2025, 1, 1, 0, 0, 0, 0⟩),
     ("2", sampleToken "b" ⟨2025, 1, 2, 0, 0, 0, 0⟩)] ≠ ([] : List (String × TokenData)) ∧
    ∃ t, get_latest_token
        [("1", sampleToken "a" ⟨2025, 1, 1, 0, 0, 0, 0⟩),
         ("2", sampleToken "b" ⟨2025, 1, 2, 0, 0, 0, 0⟩)] = some t ∧
      t ∈ ([("1", sampleToken "a" ⟨2025, 1, 1, 0, 0, 0, 0⟩),
            ("2", sampleToken "b" ⟨2025, 1, 2, 0, 0, 0, 0⟩)].map Prod.snd) ∧
      ∀ x ∈ ([("1", sampleToken "a" ⟨2025, 1, 1, 0, 0, 0, 0⟩),
              ("2", sampleToken "b" ⟨2025, 1, 2, 0, 0, 0, 0⟩)].map Prod.snd),
        x.created_at.leb t.created_at = true :=
  ⟨by decide, (get_latest_token_spec _).2 (by decide)⟩

/-- C5 counterexample: the claim says the result is unchanged under
re-insertion order of equally timestamped entries.  On the code, ties are
broken by insertion order, not id order: inserting the same two equally
timestamped credentials in the two possible orders yields two different
results, so the claimed insertion-order stability is false. -/
theorem get_latest_token_order_counterexample :
    get_latest_token
        [("1", sampleToken "a" ⟨2025, 1, 1, 0, 0, 0, 0⟩),
         ("2", sampleToken "b" ⟨2025, 1, 1, 0, 0, 0, 0⟩)]
      = some (sampleToken "a" ⟨2025, 1, 1, 0, 0, 0, 0⟩) ∧
    get_latest_token
        [("2", sampleToken "b" ⟨2025, 1, 1, 0, 0, 0, 0⟩),
         ("1", sampleToken "a" ⟨2025, 1, 1, 0, 0, 0, 0⟩)]
      = some (sampleToken "b" ⟨2025, 1, 1, 0, 0, 0, 0⟩) ∧
    sampleToken "a" ⟨2025, 1, 1, 0, 0, 0, 0⟩ ≠ sampleToken "b" ⟨2025, 1, 1, 0, 0, 0, 0⟩ := by
  refine ⟨by decide, by decide, by decide⟩

/-! ## Credential file serialization (`_save_tokens` / `_load_tokens`)

`_save_tokens` dumps each record to a JSON object whose `created_at` /
`expires_at` fields are ISO-8601 strings produced by Python's
`datetime.isoformat()`; `_load_tokens` parses them back with
`datetime.fromisoformat()`.  We model the textual timestamp format
concretely: `isoformat` renders `YYYY-MM-DDTHH:MM:SS` and appends
`.ffffff` exactly when `microsecond` is non-zero, which is CPython's
behaviour for naive datetimes; `fromisoformat` parses that same shape. -/

/-- Decimal digit characters of `n`, most significant first (Python `str(n)`
for positive `n`; empty for `n = 0`, which padding below covers). -/
def natToChars (n : Nat) : List Char := (Nat.digits 10 n).reverse.map Nat.digitChar

/-- Zero-padded fixed-width decimal rendering (Python `%04d` / `%02d` / `%06d`). -/
def padNum (w n : Nat) : List Char :=
  List.replicate (w - (natToChars n).length) '0' ++ natToChars n

/-- Character list of `datetime.isoformat()` for a naive datetime. -/
def isoChars (d : PyDateTime) : List Char :=
  padNum 4 d.year ++ '-' ::
    (padNum 2 d.month ++ '-' ::
      (padNum 2 d.day ++ 'T' ::
        (padNum 2 d.hour ++ ':' ::
          (padNum 2 d.minute ++ ':' ::
            (padNum 2 d.second ++
              (if d.microsecond = 0 then [] else '.' :: padNum 6 d.microsecond))))))

/-- `datetime.isoformat()`. -/
def PyDateTime.isoformat (d : PyDateTime) : String := String.mk (isoChars d)

/-- Numeric value of a decimal digit character. -/
def digitVal (c : Char) : Nat := c.toNat - 48

/-- Numeric value of a digit string, most significant digit first. -/
def digitsVal (cs : List Char) : Nat := cs.foldl (fun a c => 10 * a + digitVal c) 0

/-- Read exactly `w` decimal digits off the front of the input. -/
def parseFixed (w : Nat) (cs : List Char) : Option (Nat × List Char) :=
  let pre := cs.take w
  if pre.length = w ∧ pre.all Char.isDigit then some (digitsVal pre, cs.drop w) else none

/-- Require a literal separator character. -/
def expectChar (c : Char) : List Char → Option (List Char)
  | [] => none
  | x :: rest => if x = c then some rest else none

/-- Read a fixed-width decimal field followed by a literal separator. -/
def parseField (w : Nat) (sep : Char) (cs : List Char) : Option (Nat × List Char) :=
  match parseFixed w cs with
  | none => none
  | some (v, cs) =>
    match expectChar sep cs with
    | none => none
    | some cs => some (v, cs)

/-- Parser for the character list of `datetime.fromisoformat()` on the shape
produced by `isoformat` (`YYYY-MM-DDTHH:MM:SS[.ffffff]`). -/
def parseIso (cs : List Char) : Option PyDateTime :=
  match parseField 4 '-' cs with
  | none => none
  | some (y, cs) =>
    match parseField 2 '-' cs with
    | none => none
    | some (mo, cs) =>
      match parseField 2 'T' cs with
      | none => none
      | some (da, cs) =>
        match parseField 2 ':' cs with
        | none => none
        | some (h, cs) =>
          match parseField 2 ':' cs with
          | none => none
          | some (mi, cs) =>
            match parseFixed 2 cs with
            | none => none
            | some (s, cs) =>
              match cs with
              | [] => some ⟨y, mo, da, h, mi, s, 0⟩
              | _ =>
                match expectChar '.' cs with
                | none => none
                | some cs =>
                  match parseFixed 6 cs with
                  | none => none
                  | some (us, cs) =>
                    match cs with
                    | [] => some ⟨y, mo, da, h, mi, s, us⟩
                    | _ => none

/-- `datetime.fromisoformat()`, as a total function returning `none` where
Python would raise `ValueError`. -/
def fromisoformat (s : String) : Option PyDateTime := parseIso s.data

theorem digitsVal_go (l : List Char) (a : Nat) :
    l.foldl (fun a c => 10 * a + digitVal c) a = a * 10 ^ l.length + digitsVal l := by
  induction l generalizing a with
  | nil => simp [digitsVal]
  | cons c cs ih =>
    simp only [List.foldl_cons, digitsVal, List.length_cons] at *
    rw [ih (10 * a + digitVal c), ih (10 * 0 + digitVal c)]
    ring

theorem digitsVal_append (l1 l2 : List Char) :
    digitsVal (l1 ++ l2) = digitsVal l1 * 10 ^ l2.length + digitsVal l2 := by
  simp only [digitsVal, List.foldl_append]
  exact digitsVal_go l2 (digitsVal l1)

theorem digitsVal_replicate_zero (k : Nat) :
    digitsVal (List.replicate k '0') = 0 := by
  induction k with
  | zero => rfl
  | succ n ih =>
    have : List.replicate (n + 1) '0' = List.replicate n '0' ++ ['0'] := by
      rw [List.replicate_succ' (α := Char)]
    rw [this, digitsVal_append, ih]
    rfl

theorem digitVal_digitChar {d : Nat} (h : d < 10) : digitVal (Nat.digitChar d) = d := by
  interval_cases d <;> rfl

theorem isDigit_digitChar {d : Nat} (h : d < 10) : (Nat.digitChar d).isDigit = true := by
  interval_cases d <;> rfl

theorem digitsVal_natToChars (n : Nat) : digitsVal (natToChars n) = n := by
  have key : ∀ l : List Nat, (∀ x ∈ l, x < 10) →
      digitsVal (l.reverse.map Nat.digitChar) = Nat.ofDigits 10 l := by
    intro l
    induction l with
    | nil => intro _; rfl
    | cons a as ih =>
      intro hlt
      have ha : a < 10 := hlt a (List.mem_cons_self a as)
      rw [List.reverse_cons, List.map_append, digitsVal_append]
      rw [ih (fun x hx => hlt x (List.mem_cons_of_mem a hx))]
      simp only [List.map_cons, List.map_nil, List.length_cons, List.length_nil]
      rw [Nat.ofDigits_cons]
      have : digitsVal [Nat.digitChar a] = a := by
        simp [digitsVal, digitVal_digitChar ha]
      rw [this]
      ring
  have := key (Nat.digits 10 n) (fun x hx => Nat.digits_lt_base (by norm_num) hx)
  rw [natToChars, this, Nat.ofDigits_digits]

theorem natToChars_length_le {n w : Nat} (h : n < 10 ^ w) :
    (natToChars n).length ≤ w := by
  rcases Nat.eq_zero_or_pos n with h0 | h0
  · subst h0; simp [natToChars]
  · rw [natToChars, List.length_map, List.length_reverse]
    rw [Nat.digits_len 10 n (by norm_num) (Nat.pos_iff_ne_zero.mp h0)]
    have := (Nat.lt_pow_iff_log_lt (by norm_num) (Nat.pos_iff_ne_zero.mp h0)).mp h
    omega

theorem natToChars_all_digits (n : Nat) : (natToChars n).all Char.isDigit = true := by
  rw [natToChars, List.all_eq_true]
  intro c hc
  rw [List.mem_map] at hc
  obtain ⟨d, hd, rfl⟩ := hc
  rw [List.mem_reverse] at hd
  exact isDigit_digitChar (Nat.digits_lt_base (by norm_num) hd)

theorem padNum_length {w n : Nat} (h : n < 10 ^ w) : (padNum w n).length = w := by
  have := natToChars_length_le h
  simp only [padNum, List.length_append, List.length_replicate]
  omega

theorem padNum_all_digits (w n : Nat) : (padNum w n).all Char.isDigit = true := by
  rw [padNum, List.all_append, natToChars_all_digits, Bool.and_true]
  rw [List.all_eq_true]
  intro c hc
  rw [List.eq_of_mem_replicate hc]
  rfl

theorem digitsVal_padNum (w n : Nat) : digitsVal (padNum w n) = n := by
  rw [padNum, digitsVal_append, digitsVal_replicate_zero, digitsVal_natToChars]
  ring

theorem parseFixed_padNum {w n : Nat} {rest : List Char} (h : n < 10 ^ w) :
    parseFixed w (padNum w n ++ rest) = some (n, rest) := by
  have hlen := padNum_length h
  have htake := List.take_left (padNum w n) rest
  have hdrop := List.drop_left (padNum w n) rest
  rw [hlen] at htake hdrop
  rw [parseFixed]
  simp only [htake, hdrop]
  rw [if_pos ⟨hlen, padNum_all_digits w n⟩, digitsVal_padNum]

theorem expectChar_cons (c : Char) (rest : List Char) :
    expectChar c (c :: rest) = some rest := by
  simp [expectChar]

theorem parseField_pad {w n : Nat} {sep : Char} {rest : List Char} (h : n < 10 ^ w) :
    parseField w sep (padNum w n ++ sep :: rest) = some (n, rest) := by
  rw [parseField, parseFixed_padNum h]
  simp only [expectChar_cons]

theorem parseFixed_pad_exact {w n : Nat} (h : n < 10 ^ w) :
    parseFixed w (padNum w n) = some (n, []) := by
  have := @parseFixed_padNum w n [] h
  rwa [List.append_nil] at this

/-- Component bounds of every real Python datetime (pydantic validates the
calendar ranges, which imply these fixed-width digit bounds). -/
def dtValid (d : PyDateTime) : Prop :=
  d.year < 10 ^ 4 ∧ d.month < 10 ^ 2 ∧ d.day < 10 ^ 2 ∧ d.hour < 10 ^ 2 ∧
    d.minute < 10 ^ 2 ∧ d.second < 10 ^ 2 ∧ d.microsecond < 10 ^ 6

theorem parseIso_isoChars (d : PyDateTime) (h : dtValid d) :
    parseIso (isoChars d) = some d := by
  obtain ⟨y, mo, da, hh, mi, ss, us⟩ := d
  obtain ⟨h1, h2, h3, h4, h5, h6, h7⟩ := h
  rw [isoChars, parseIso]
  simp only [parseField_pad h1, parseField_pad h2, parseField_pad h3, parseField_pad h4,
    parseField_pad h5, parseFixed_padNum h6]
  by_cases hm : us = 0
  · subst hm
    rfl
  · rw [if_neg hm]
    simp only [expectChar_cons, parseFixed_pad_exact h7]

theorem fromisoformat_isoformat (d : PyDateTime) (h : dtValid d) :
    fromisoformat d.isoformat = some d :=
  parseIso_isoChars d h

/-- One entry of the storage file: the JSON object `_save_tokens` writes for
a token.  The non-datetime fields pass through JSON unchanged; `created_at`
and `expires_at` are the ISO strings (JSON `null` for an absent
`expires_at`, since `model_dump` leaves it `None` and the save loop only
overwrites it when it is truthy). -/
structure TokenJson where
  access_token : String
  token_type : String
  expires_in : Int
  refresh_token : String
  scope : String
  created_at : String
  expires_at : Option String := none
deriving DecidableEq, Repr

/-- The object `_save_tokens` writes for one `TokenData`. -/
def dumpToken (td : TokenData) : TokenJson :=
  { access_token := td.access_token, token_type := td.token_type,
    expires_in := td.expires_in, refresh_token := td.refresh_token,
    scope := td.scope, created_at := td.created_at.isoformat,
    expires_at := td.expires_at.map PyDateTime.isoformat }

/-- `TokenStorage._save_tokens` / `TokenManager._save_tokens`: the file
content written for the in-memory store. -/
def save_tokens_data (tokens : List (String × TokenData)) : List (String × TokenJson) :=
  tokens.map (fun p => (p.1, dumpToken p.2))

/-- The `expires_at` handling of `_load_tokens`: `token_data.get('expires_at')`
is truthy exactly for a non-empty string, in which case it is parsed with
`fromisoformat`; `null` stays `None`; an empty string would be handed
unparsed to the model and rejected (modelled as failure). -/
def loadExpires : Option String → Option (Option PyDateTime)
  | none => some none
  | some s => if s = "" then none else (fromisoformat s).map some

/-- The `TokenData` that `_load_tokens` reconstructs from one file entry,
`none` where Python would raise. -/
def loadToken (tj : TokenJson) : Option TokenData :=
  match fromisoformat tj.created_at with
  | none => none
  | some created =>
    match loadExpires tj.expires_at with
    | none => none
    | some expires =>
      some { access_token := tj.access_token, token_type := tj.token_type,
             expires_in := tj.expires_in, refresh_token := tj.refresh_token,
             scope := tj.scope, created_at := created, expires_at := expires }

/-- `TokenStorage._load_tokens` / `TokenManager._load_tokens` over the whole
file content. -/
def load_tokens_data (data : List (String × TokenJson)) : Option (List (String × TokenData)) :=
  data.mapM (fun p => (loadToken p.2).map (fun td => (p.1, td)))

/-- Every datetime inside the record is a valid Python datetime. -/
def tokenValid (td : TokenData) : Prop :=
  dtValid td.created_at ∧ ∀ e, td.expires_at = some e → dtValid e

theorem isoformat_ne_empty (d : PyDateTime) : d.isoformat ≠ "" := by
  intro hc
  have hdata : isoChars d = [] := congrArg String.data hc
  rw [isoChars] at hdata
  simp at hdata

theorem loadToken_dumpToken (td : TokenData) (h : tokenValid td) :
    loadToken (dumpToken td) = some td := by
  obtain ⟨hc, he⟩ := h
  have hcr : fromisoformat (dumpToken td).created_at = some td.created_at :=
    fromisoformat_isoformat td.created_at hc
  have hexp : loadExpires (dumpToken td).expires_at = some td.expires_at := by
    show loadExpires (td.expires_at.map PyDateTime.isoformat) = some td.expires_at
    match hte : td.expires_at with
    | none => rfl
    | some e =>
      show loadExpires (some e.isoformat) = some (some e)
      rw [loadExpires]
      rw [if_neg (isoformat_ne_empty e)]
      rw [fromisoformat_isoformat e (he e hte)]
      rfl
  rw [loadToken, hcr, hexp]
  rfl

/-- C6.  Round-trip: for every credential store whose datetimes are valid
Python datetimes, saving it to the storage-file representation
(`_save_tokens`) and reloading it (`_load_tokens`) succeeds and yields, for
every entry, a credential with exactly the original field values (the
timestamp text format is exact at microsecond precision, so equality is
on-the-nose rather than merely up to the documented precision). -/
theorem load_save_tokens_round_trip (tokens : List (String × TokenData))
    (h : ∀ p ∈ tokens, tokenValid p.2) :
    load_tokens_data (save_tokens_data tokens) = some tokens := by
  induction tokens with
  | nil => rfl
  | cons p rest ih =>
    have hp := h p (List.mem_cons_self p rest)
    have hrest := ih (fun q hq => h q (List.mem_cons_of_mem p hq))
    rw [save_tokens_data, List.map_cons, load_tokens_data, List.mapM_cons]
    rw [loadToken_dumpToken p.2 hp]
    rw [save_tokens_data, load_tokens_data] at hrest
    simp only [Option.map_some, Option.bind_eq_bind', Option.some_bind, hrest]
    rfl

/-- C6 witness: a concrete two-entry store — one credential with an
`expires_at`, one without — survives the save/load round trip unchanged. -/
theorem load_save_tokens_round_trip_witness :
    load_tokens_data (save_tokens_data
        [("1", { access_token := "at", token_type := "Bearer", expires_in := 3600,
                 refresh_token := "rt", scope := "identify",
                 created_at := ⟨2025, 3, 26, 5, 34, 43, 123456⟩,
                 expires_at := some ⟨2025, 3, 26, 6, 34, 43, 123456⟩ }),
         ("2", { access_token := "at2", token_type := "Bearer", expires_in := 60,
                 refresh_token := "rt2", scope := "guilds",
                 created_at := ⟨2025, 3, 26, 5, 26, 26, 0⟩ })])
      = some
        [("1", { access_token := "at", token_type := "Bearer", expires_in := 3600,
                 refresh_token := "rt", scope := "identify",
                 created_at := ⟨2025, 3, 26, 5, 34, 43, 123456⟩,
                 expires_at := some ⟨2025, 3, 26, 6, 34, 43, 123456⟩ }),
         ("2", { access_token := "at2", token_type := "Bearer", expires_in := 60,
                 refresh_token := "rt2", scope := "guilds",
                 created_at := ⟨2025, 3, 26, 5, 26, 26, 0⟩ })] :=
  load_save_tokens_round_trip _ (by
    intro p hp
    rw [List.mem_cons, List.mem_cons] at hp
    rcases hp with rfl | rfl | hp
    · exact ⟨by norm_num [dtValid], fun e he => by
        simp only [Option.some_inj] at he
        rw [← he]
        norm_num [dtValid]⟩
    · exact ⟨by norm_num [dtValid], fun e he => by simp at he⟩
    · simp at hp)

/-! ## `TokenStorage.delete_token` (and `TokenManager.delete_token`)

State of a `TokenStorage` instance: the in-memory dict plus the storage
file.  `writes` counts the `_save_tokens` calls, so "performs no write"
is observable in the model. -/

structure TokenStorageState where
  tokens : List (String × TokenData)
  file : Option (List (String × TokenJson)) := none
  writes : Nat := 0
deriving DecidableEq, Repr

/-- Python `del d[token_id]`: removes that key, keeping all other entries in
order. -/
def dictErase (k : String) (d : List (String × TokenData)) : List (String × TokenData) :=
  d.filter (fun p => p.1 ≠ k)

/-- `TokenStorage.delete_token`: `if token_id in self._tokens: del
self._tokens[token_id]; self._save_tokens()` — nothing at all happens for
an absent id. -/
def delete_token (st : TokenStorageState) (token_id : String) : TokenStorageState :=
  if dictContains token_id st.tokens then
    let tokens := dictErase token_id st.tokens
    { tokens := tokens, file := some (save_tokens_data tokens), writes := st.writes + 1 }
  else st

theorem dictErase_cons (token_id pk : String) (pv : TokenData)
    (rest : List (String × TokenData)) :
    dictErase token_id ((pk, pv) :: rest)
      = if pk = token_id then dictErase token_id rest
        else (pk, pv) :: dictErase token_id rest := by
  rw [dictErase, List.filter_cons]
  by_cases hp : pk = token_id
  · simp [hp, dictErase]
  · simp [hp, dictErase]

theorem lookup_dictErase (k token_id : String) (d : List (String × TokenData)) :
    List.lookup k (dictErase token_id d)
      = if k = token_id then none else List.lookup k d := by
  induction d with
  | nil => simp [dictErase]
  | cons p rest ih =>
    obtain ⟨pk, pv⟩ := p
    rw [dictErase_cons]
    by_cases hp : pk = token_id
    · rw [if_pos hp, ih]
      by_cases hk : k = token_id
      · simp [hk]
      · have hkp : k ≠ pk := fun hc => hk (hc.trans hp)
        have hb : (k == pk) = false := by simp [hkp]
        simp [hk, List.lookup_cons, hb]
    · rw [if_neg hp]
      by_cases hkp : k = pk
      · have hk : k ≠ token_id := fun hc => hp (hkp.symm.trans hc)
        have hb : (k == pk) = true := by simp [hkp]
        simp [List.lookup_cons, hb, hk]
      · have hb : (k == pk) = false := by simp [hkp]
        simp [List.lookup_cons, hb, ih]

/-- C10.  Frame conditions of `delete_token`: for an id absent from the store
the state is completely unchanged — same mapping, same file, no write to the
storage file; for a present id exactly that entry is removed (its lookup
becomes `none`, every other lookup is unchanged), the shrunk store is
persisted by one `_save_tokens` call, and the operation never fails. -/
theorem delete_token_frame (st : TokenStorageState) (token_id : String) :
    (dictContains token_id st.tokens = false → delete_token st token_id = st) ∧
    (dictContains token_id st.tokens = true →
      List.lookup token_id (delete_token st token_id).tokens = none ∧
      (∀ k, k ≠ token_id →
        List.lookup k (delete_token st token_id).tokens = List.lookup k st.tokens) ∧
      (delete_token st token_id).file
        = some (save_tokens_data (dictErase token_id st.tokens)) ∧
      (delete_token st token_id).writes = st.writes + 1) := by
  constructor
  · intro h
    rw [delete_token, if_neg (by rw [h]; exact Bool.false_ne_true)]
  · intro h
    rw [delete_token, if_pos h]
    refine ⟨?_, ?_, rfl, rfl⟩
    · rw [lookup_dictErase, if_pos rfl]
    · intro k hk
      rw [lookup_dictErase, if_neg hk]

/-- C10 witness: on a concrete two-entry store, deleting a present id removes
exactly that entry and persists, and deleting an absent id changes nothing. -/
theorem delete_token_frame_witness :
    (delete_token
        { tokens := [("1", sampleToken "a" ⟨2025, 1, 1, 0, 0, 0, 0⟩),
                     ("2", sampleToken "b" ⟨2025, 1, 2, 0, 0, 0, 0⟩)] } "7"
      = { tokens := [("1", sampleToken "a" ⟨2025, 1, 1, 0, 0, 0, 0⟩),
                     ("2", sampleToken "b" ⟨2025, 1, 2, 0, 0, 0, 0⟩)] }) ∧
    List.lookup "1"
        (delete_token
          { tokens := [("1", sampleToken "a" ⟨2025, 1, 1, 0, 0, 0, 0⟩),
                       ("2", sampleToken "b" ⟨2025, 1, 2, 0, 0, 0, 0⟩)] } "1").tokens
      = none ∧
    (delete_token
        { tokens := [("1", sampleToken "a" ⟨2025, 1, 1, 0, 0, 0, 0⟩),
                     ("2", sampleToken "b" ⟨2025, 1, 2, 0, 0, 0, 0⟩)] } "1").writes = 1 :=
  ⟨(delete_token_frame _ "7").1 (by decide),
   ((delete_token_frame _ "1").2 (by decide)).1,
   ((delete_token_frame _ "1").2 (by decide)).2.2.2⟩

/-! ## Credential creation (`src/oauth_server.py` `callback`)

The callback handler exchanges the authorization code, then builds
`TokenData(..., expires_at=datetime.utcnow() + timedelta(seconds=expires_in))`.
For the `+ timedelta(seconds=...)` arithmetic we model instants on the
seconds timeline (naive datetimes form an affine timeline, so `Int`
instants with `+` are a faithful model of datetime/timedelta arithmetic;
the component view used elsewhere is not needed here). -/

/-- `OAuth2TokenResponse` (src/models/discord_models.py,
src/client/discord_api.py). -/
structure OAuth2TokenResponse where
  access_token : String
  token_type : String
  expires_in : Int
  refresh_token : String
  scope : String
deriving DecidableEq, Repr

/-- A credential on the instant timeline (same fields as `TokenData`,
datetimes as seconds-since-epoch instants). -/
structure TokenDataI where
  access_token : String
  token_type : String
  expires_in : Int
  refresh_token : String
  scope : String
  created_at : Int
  expires_at : Option Int := none
deriving DecidableEq, Repr

/-- `TokenData.is_expired` on the instant timeline. -/
def TokenDataI.is_expired (td : TokenDataI) (now : Int) : Bool :=
  match td.expires_at with
  | none => true
  | some e => e ≤ now

/-- The `TokenData` built inside `callback` on successful exchange:
`expires_at = utcnow() + timedelta(seconds=token_response.expires_in)` and
`created_at` stamped by the model's `utcnow` default.  `now` is the
handler's clock reading. -/
def callbackTokenData (now : Int) (resp : OAuth2TokenResponse) : TokenDataI :=
  { access_token := resp.access_token, token_type := resp.token_type,
    expires_in := resp.expires_in, refresh_token := resp.refresh_token,
    scope := resp.scope, created_at := now,
    expires_at := some (now + resp.expires_in) }

/-- C7 counterexample: the claim says no credential is ever created whose
`expires_at` is absent.  But `_load_tokens` constructs a `TokenData` with
`expires_at = None` for any file entry lacking the field (the model's
default), so such a credential is created from this concrete file entry. -/
theorem created_token_absent_expiry_counterexample :
    loadToken { access_token := "at", token_type := "Bearer", expires_in := 3600,
                refresh_token := "rt", scope := "identify",
                created_at := "2025-01-01T00:00:00" }
      = some { access_token := "at", token_type := "Bearer", expires_in := 3600,
               refresh_token := "rt", scope := "identify",
               created_at := ⟨2025, 1, 1, 0, 0, 0, 0⟩, expires_at := none } ∧
    ({ access_token := "at", token_type := "Bearer", expires_in := 3600,
       refresh_token := "rt", scope := "identify",
       created_at := ⟨2025, 1, 1, 0, 0, 0, 0⟩, expires_at := none } : TokenData).expires_at
      = none := by
  constructor
  · rfl
  · rfl

/-- C7 (amended).  Credentials created by the OAuth callback do satisfy
`expires_at = created_at + expires_in`; but a credential can also be created
with `expires_at` absent (the model's default, used by `_load_tokens` for
file entries without the field), and any such credential is treated as
already expired at every instant. -/
theorem callback_creation_invariant (now : Int) (resp : OAuth2TokenResponse)
    (td : TokenDataI) (habs : td.expires_at = none) :
    (callbackTokenData now resp).expires_at
      = some ((callbackTokenData now resp).created_at
          + (callbackTokenData now resp).expires_in) ∧
    ∀ t : Int, td.is_expired t = true := by
  constructor
  · rfl
  · intro t
    rw [TokenDataI.is_expired, habs]

/-- C7 witness: the invariant at a concrete exchange, together with a
concrete absent-expiry credential being expired. -/
theorem callback_creation_invariant_witness :
    (callbackTokenData 1000
        { access_token := "at", token_type := "Bearer", expires_in := 3600,
          refresh_token := "rt", scope := "identify" }).expires_at
      = some ((callbackTokenData 1000
          { access_token := "at", token_type := "Bearer", expires_in := 3600,
            refresh_token := "rt", scope := "identify" }).created_at
          + (callbackTokenData 1000
              { access_token := "at", token_type := "Bearer", expires_in := 3600,
                refresh_token := "rt", scope := "identify" }).expires_in) ∧
    ∀ t : Int,
      TokenDataI.is_expired
        { access_token := "a", token_type := "Bearer", expires_in := 1,
          refresh_token := "r", scope := "s", created_at := 0,
          expires_at := none } t = true :=
  callback_creation_invariant 1000
    { access_token := "at", token_type := "Bearer", expires_in := 3600,
      refresh_token := "rt", scope := "identify" }
    { access_token := "a", token_type := "Bearer", expires_in := 1,
      refresh_token := "r", scope := "s", created_at := 0, expires_at := none }
    rfl

/-! ## RAG pipeline (`src/services/rag_service.py`, `src/rag_llama_index_faiss.py`)

`RAGService.process_messages` dumps each message into a dict keyed by
message id; `create_index` walks that dict and synthesizes one text node
per message.  A message record here carries the fields the pipeline reads
from the dict-shaped `model_dump` (`id`, `content`, `channel_id`,
`author.username`, `timestamp`, and the optional `message_reference` that
`create_index` looks up); the remaining upstream `MessageModel` fields do
not influence any modelled operation.  Timestamps ride along as their
rendered text. -/

/-- The author fields the pipeline reads. -/
structure MsgAuthor where
  username : String
  id : String
deriving DecidableEq, Repr

/-- `MessageReferenceModel`: the reply edge to a parent message. -/
structure MessageReference where
  message_id : String
  channel_id : String
deriving DecidableEq, Repr

/-- A Discord message as consumed by the pipeline. -/
structure MessageModel where
  id : String
  content : String
  channel_id : String
  author : MsgAuthor
  timestamp : String
  message_reference : Option MessageReference := none
deriving DecidableEq, Repr

/-- `RAGService.process_messages` (= `MessageProcessor.process_messages`):
`message_dict[msg.id] = msg.model_dump()` over all messages, in order. -/
def RAGService.process_messages (messages : List MessageModel) :
    List (String × MessageModel) :=
  messages.foldl (fun d msg => dictInsert msg.id msg d) []

/-- The document text `create_index` synthesizes for one message:
`"{author} said: {content}"`, plus the reply annotation when the message
has a `message_reference` whose `message_id` is a key of the processed
dict. -/
def nodeText (processed : List (String × MessageModel)) (msg : MessageModel) : String :=
  let text := msg.author.username ++ " said: " ++ msg.content
  match msg.message_reference with
  | none => text
  | some r =>
    match List.lookup r.message_id processed with
    | none => text
    | some parent =>
      text ++ "\n[In reply to " ++ parent.author.username ++ " who said: "
        ++ parent.content ++ "]"

/-- One `TextNode` as built by `create_index` (text plus the metadata
fields); the embedding model and faiss index the nodes are handed to are
the external index provider. -/
structure TextNode where
  text : String
  message_id : String
  author : String
  timestamp : String
  channel_id : String
deriving DecidableEq, Repr

/-- The node list `RAGService.create_index` (= `create_llama_index`) builds
from the processed dict, in dict iteration order. -/
def create_index_nodes (processed : List (String × MessageModel)) : List TextNode :=
  processed.map (fun p =>
    { text := nodeText processed p.2, message_id := p.1,
      author := p.2.author.username, timestamp := p.2.timestamp,
      channel_id := p.2.channel_id })

/-- C2 counterexample: with A `(author x, content hi)` and B
`(author y, content yo, parent = A)` processed in order `[B, A]` — the
parent not yet seen when B is handled — the claim says B's document text is
`"y said: yo"` with no annotation.  On the code the parent lookup is
against the complete processed dict, so B's text still carries the reply
annotation in this order. -/
theorem document_synthesis_order_counterexample :
    (create_index_nodes (RAGService.process_messages
        [{ id := "b1", content := "yo", channel_id := "chan",
           author := { username := "y", id := "uy" }, timestamp := "t2",
           message_reference := some { message_id := "a1", channel_id := "chan" } },
         { id := "a1", content := "hi", channel_id := "chan",
           author := { username := "x", id := "ux" }, timestamp := "t1" }])).map TextNode.text
      = ["y said: yo\n[In reply to x who said: hi]", "x said: hi"] ∧
    ("y said: yo\n[In reply to x who said: hi]" : String) ≠ "y said: yo" := by
  constructor
  · rfl
  · decide

/-- C2 (amended).  Document synthesis is order-independent: for A
`(author x, content hi)` and B `(author y, content yo, parent = A)`, B's
document text equals `"y said: yo\n[In reply to x who said: hi]"` whether
the messages are processed in order `[A, B]` or `[B, A]`; the reply
annotation is added exactly when the parent is present anywhere in the
complete processed mapping, and is omitted only when the parent is absent
from it (B processed alone). -/
theorem document_synthesis_order_insensitive :
    (create_index_nodes (RAGService.process_messages
        [{ id := "a1", content := "hi", channel_id := "chan",
           author := { username := "x", id := "ux" }, timestamp := "t1" },
         { id := "b1", content := "yo", channel_id := "chan",
           author := { username := "y", id := "uy" }, timestamp := "t2",
           message_reference := some { message_id := "a1", channel_id := "chan" } }])).map
        TextNode.text
      = ["x said: hi", "y said: yo\n[In reply to x who said: hi]"] ∧
    (create_index_nodes (RAGService.process_messages
        [{ id := "b1", content := "yo", channel_id := "chan",
           author := { username := "y", id := "uy" }, timestamp := "t2",
           message_reference := some { message_id := "a1", channel_id := "chan" } },
         { id := "a1", content := "hi", channel_id := "chan",
           author := { username := "x", id := "ux" }, timestamp := "t1" }])).map TextNode.text
      = ["y said: yo\n[In reply to x who said: hi]", "x said: hi"] ∧
    (create_index_nodes (RAGService.process_messages
        [{ id := "b1", content := "yo", channel_id := "chan",
           author := { username := "y", id := "uy" }, timestamp := "t2",
           message_reference := some { message_id := "a1", channel_id := "chan" } }])).map
        TextNode.text
      = ["y said: yo"] := by
  refine ⟨rfl, rfl, rfl⟩

/-! ## Thread reconstruction (`playground/rag_llama_index_faiss.py` `process_messages`)

The parent-to-children thread index of the repository is built by the
playground pipeline's `process_messages`: a single pass stores each
message's `to_dict()` under its id and, for each message carrying a
`message_reference`, appends its id to `threads[parent_id]` (creating the
entry if absent); a second pass copies each thread entry onto the parent's
dict record as `replies` when the parent was fetched. -/

/-- `MessageModel.to_dict()` of the playground model: author flattened to
the username, `refers_to` present exactly when there is a reference. -/
structure PMsgDict where
  id : String
  content : String
  channel_id : String
  author : String
  timestamp : String
  refers_to : Option String := none
  replies : Option (List String) := none
deriving DecidableEq, Repr

/-- `to_dict` (playground `MessageModel.to_dict`). -/
def to_dict (m : MessageModel) : PMsgDict :=
  { id := m.id, content := m.content, channel_id := m.channel_id,
    author := m.author.username, timestamp := m.timestamp,
    refers_to := m.message_reference.map MessageReference.message_id }

/-- `threads[parent_id].append(msg.id)`, creating the entry (`[]`) if the
key is absent. -/
def threadsAppend (parent_id msg_id : String) :
    List (String × List String) → List (String × List String)
  | [] => [(parent_id, [msg_id])]
  | p :: rest =>
    if p.1 = parent_id then (p.1, p.2 ++ [msg_id]) :: rest
    else p :: threadsAppend parent_id msg_id rest

/-- `message_dict[msg_id]["replies"] = thread_replies`: in-place field
update of an existing entry. -/
def dictSetReplies (k : String) (rs : List String) :
    List (String × PMsgDict) → List (String × PMsgDict)
  | [] => []
  | p :: rest =>
    if p.1 = k then (p.1, { p.2 with replies := some rs }) :: rest
    else p :: dictSetReplies k rs rest

/-- Playground `process_messages`: returns the pair of the message dict and
the thread index (`{"messages": ..., "threads": ...}`). -/
def Playground.process_messages (messages : List MessageModel) :
    List (String × PMsgDict) × List (String × List String) :=
  let firstPass := messages.foldl
    (fun acc msg =>
      (dictInsert msg.id (to_dict msg) acc.1,
       match msg.message_reference with
       | some r => threadsAppend r.message_id msg.id acc.2
       | none => acc.2))
    ([], [])
  let message_dict := firstPass.2.foldl
    (fun d p => if dictContains p.1 d then dictSetReplies p.1 p.2 d else d)
    firstPass.1
  (message_dict, firstPass.2)

/-- C3.  Thread reconstruction: on the message set `[A, B, C]` with A having
no parent, B's parent reference naming A and C's parent reference naming B
(distinct ids), the thread index is exactly `[A.id -> [B.id], B.id -> [C.id]]`:
A's id maps to `[B.id]`, B's id maps to `[C.id]`, and C's id is absent from
the map; moreover a referenced parent gets its entry even when that parent
message was never fetched (C alone yields the entry `B.id -> [C.id]`),
without error. -/
theorem thread_reconstruction (a b c : String)
    (ca cb cc ch t1 t2 t3 rc1 rc2 : String) (au1 au2 au3 : MsgAuthor)
    (hab : a ≠ b) (hbc : b ≠ c) (hac : a ≠ c) :
    (Playground.process_messages
        [{ id := a, content := ca, channel_id := ch, author := au1, timestamp := t1 },
         { id := b, content := cb, channel_id := ch, author := au2, timestamp := t2,
           message_reference := some { message_id := a, channel_id := rc1 } },
         { id := c, content := cc, channel_id := ch, author := au3, timestamp := t3,
           message_reference := some { message_id := b, channel_id := rc2 } }]).2
      = [(a, [b]), (b, [c])] ∧
    List.lookup a [(a, [b]), (b, [c])] = some [b] ∧
    List.lookup b [(a, [b]), (b, [c])] = some [c] ∧
    List.lookup c [(a, [b]), (b, [c])] = none ∧
    (Playground.process_messages
        [{ id := c, content := cc, channel_id := ch, author := au3, timestamp := t3,
           message_reference := some { message_id := b, channel_id := rc2 } }]).2
      = [(b, [c])] := by
  have hba : b ≠ a := hab.symm
  have hcb : c ≠ b := hbc.symm
  have hca : c ≠ a := hac.symm
  refine ⟨?_, ?_, ?_, ?_, ?_⟩
  · simp [Playground.process_messages, dictInsert, to_dict, threadsAppend, hab, hbc, hac]
  · simp [List.lookup_cons]
  · have h1 : (b == a) = false := by simp [hba]
    simp [List.lookup_cons, h1]
  · have h1 : (c == a) = false := by simp [hca]
    have h2 : (c == b) = false := by simp [hcb]
    simp [List.lookup_cons, h1, h2]
  · simp [Playground.process_messages, dictInsert, to_dict, threadsAppend, dictContains]

/-- C3 witness: the thread index at concrete distinct ids. -/
theorem thread_reconstruction_witness :
    (Playground.process_messages
        [{ id := "a", content := "ca", channel_id := "ch",
           author := ⟨"u1", "i1"⟩, timestamp := "t1" },
         { id := "b", content := "cb", channel_id := "ch",
           author := ⟨"u2", "i2"⟩, timestamp := "t2",
           message_reference := some { message_id := "a", channel_id := "ch" } },
         { id := "c", content := "cc", channel_id := "ch",
           author := ⟨"u3", "i3"⟩, timestamp := "t3",
           message_reference := some { message_id := "b", channel_id := "ch" } }]).2
      = [("a", ["b"]), ("b", ["c"])] ∧
    List.lookup "a" [("a", ["b"]), ("b", ["c"])] = some ["b"] ∧
    List.lookup "b" [("a", ["b"]), ("b", ["c"])] = some ["c"] ∧
    List.lookup "c" [("a", ["b"]), ("b", ["c"])] = none ∧
    (Playground.process_messages
        [{ id := "c", content := "cc", channel_id := "ch",
           author := ⟨"u3", "i3"⟩, timestamp := "t3",
           message_reference := some { message_id := "b", channel_id := "ch" } }]).2
      = [("b", ["c"])] :=
  thread_reconstruction "a" "b" "c" "ca" "cb" "cc" "ch" "t1" "t2" "t3" "ch" "ch"
    ⟨"u1", "i1"⟩ ⟨"u2", "i2"⟩ ⟨"u3", "i3"⟩ (by decide) (by decide) (by decide)

/-! ## Query service (`src/core/message_service.py` `MessageService`)

`MessageService` holds the fetched message list and an optional
`RAGService`; `query_messages` lazily runs `process_messages` (which
fetches if needed and builds the index) when no `RAGService` exists yet.
The Discord fetch result and the vector-store retrieval are the external
collaborators: the fetch result is the `envMessages` parameter and the
retriever is an opaque function from nodes, query and `top_k` to scored
nodes. -/

/-- A retrieval hit: a node with the provider's similarity score.  Scores
are opaque provider values; we carry them as integers. -/
structure ScoredNode where
  node : TextNode
  score : Int
deriving DecidableEq, Repr

/-- A result dict of `RAGService.query_messages`
(`{"text": ..., "score": ..., "metadata": ...}`). -/
structure QueryResult where
  text : String
  score : Int
  message_id : String
  author : String
  timestamp : String
  channel_id : String
deriving DecidableEq, Repr

/-- State of a `RAGService` instance: the messages it was constructed with
and the optional built index (modelled by its node list). -/
structure RAGState where
  messages : List MessageModel
  index : Option (List TextNode) := none
deriving DecidableEq, Repr

/-- `RAGService.create_index`: builds the nodes from the processed data and
stores the index on the instance. -/
def RAGService.create_index (st : RAGState) (processed : List (String × MessageModel)) :
    RAGState :=
  { st with index := some (create_index_nodes processed) }

/-- The re-wrapped result dict for one retrieval hit. -/
def toQueryResult (sn : ScoredNode) : QueryResult where
  text := sn.node.text
  score := sn.score
  message_id := sn.node.message_id
  author := sn.node.author
  timestamp := sn.node.timestamp
  channel_id := sn.node.channel_id

/-- `RAGService.query_messages`: raises (`.error`) when `create_index` has
not run; otherwise retrieves `top_k` candidates and re-wraps them. -/
def RAGService.query_messages
    (retrieve : List TextNode → String → Nat → List ScoredNode)
    (st : RAGState) (query : String) (top_k : Nat) : Except String (List QueryResult) :=
  match st.index with
  | none => .error "Index has not been created. Call create_index first."
  | some nodes => .ok ((retrieve nodes query top_k).map toQueryResult)

/-- State of a `MessageService` instance. -/
structure MessageServiceState where
  messages : List MessageModel
  rag_service : Option RAGState := none
deriving DecidableEq, Repr

/-- `MessageService.fetch_messages`: stores the fetch result from the
Discord service. -/
def MessageService.fetch_messages (envMessages : List MessageModel)
    (st : MessageServiceState) : MessageServiceState :=
  { st with messages := envMessages }

/-- `MessageService.process_messages`: fetches when no messages are held
(empty list is falsy), constructs a `RAGService` over the held messages,
processes them and builds the index. -/
def MessageService.process_messages (envMessages : List MessageModel)
    (st : MessageServiceState) : MessageServiceState :=
  let st := if st.messages = [] then MessageService.fetch_messages envMessages st else st
  let rag : RAGState := { messages := st.messages }
  let processed := RAGService.process_messages rag.messages
  { st with rag_service := some (RAGService.create_index rag processed) }

/-- `MessageService.query_messages`: lazily processes when no `RAGService`
exists, then queries it and keeps the results whose score is at least
`min_score`. -/
def MessageService.query_messages
    (retrieve : List TextNode → String → Nat → List ScoredNode)
    (envMessages : List MessageModel) (st : MessageServiceState)
    (query : String) (min_score : Int) (top_k : Nat) :
    MessageServiceState × Except String (List QueryResult) :=
  let st := if st.rag_service = none
    then MessageService.process_messages envMessages st else st
  match st.rag_service with
  | none => (st, .ok [])
  | some rag =>
    match RAGService.query_messages retrieve rag query top_k with
    | .error e => (st, .error e)
    | .ok results => (st, .ok (results.filter (fun r => min_score ≤ r.score)))

/-- The fully initialized `MessageService` state over a message list:
messages fetched, `RAGService` constructed, index built from the processed
messages. -/
def builtState (msgs : List MessageModel) : MessageServiceState where
  messages := msgs
  rag_service := some
    { messages := msgs,
      index := some (create_index_nodes (RAGService.process_messages msgs)) }

/-- C9.  Lazy initialization: querying with no `RAGService` yet does not
hard-fail — it implicitly fetches (when no messages are held) and processes,
leaving a state whose index is built from the processed messages, and
answers the query with the retrieved results filtered by `min_score`; and
once a state holds a built index, every further query returns it unchanged
(the existing index is reused, never rebuilt). -/
theorem query_messages_lazy_init
    (retrieve : List TextNode → String → Nat → List ScoredNode)
    (envMessages : List MessageModel) (st : MessageServiceState)
    (query : String) (min_score : Int) (top_k : Nat)
    (hnone : st.rag_service = none) (hempty : st.messages = []) :
    (MessageService.query_messages retrieve envMessages st query min_score top_k).1
      = builtState envMessages ∧
    (MessageService.query_messages retrieve envMessages st query min_score top_k).2
      = .ok (((retrieve (create_index_nodes (RAGService.process_messages envMessages))
            query top_k).map toQueryResult).filter (fun r => min_score ≤ r.score)) ∧
    ∀ (st2 : MessageServiceState) (env2 : List MessageModel)
      (q2 : String) (ms2 : Int) (k2 : Nat), st2.rag_service ≠ none →
      (MessageService.query_messages retrieve env2 st2 q2 ms2 k2).1 = st2 := by
  obtain ⟨msgs, rag⟩ := st
  simp only at hnone hempty
  subst hnone hempty
  refine ⟨?_, ?_, ?_⟩
  · rfl
  · rfl
  · intro st2 env2 q2 ms2 k2 h2
    rw [MessageService.query_messages]
    simp only [if_neg h2]
    cases hrs2 : st2.rag_service with
    | none => exact absurd hrs2 h2
    | some rag2 =>
      dsimp only
      cases RAGService.query_messages retrieve rag2 q2 k2 with
      | error e => rfl
      | ok results => rfl

/-- A concrete one-message fetch result used in the C9 witness. -/
def sampleMsg : MessageModel :=
  { id := "a1", content := "hi", channel_id := "chan",
    author := { username := "x", id := "ux" }, timestamp := "t1" }

/-- C9 witness: a concrete first query from the fresh state builds the index
and answers, and a second query from the built state leaves it untouched. -/
theorem query_messages_lazy_init_witness :
    (MessageService.query_messages (fun nodes _ _ => nodes.map (fun n => ⟨n, 1⟩))
        [sampleMsg] { messages := [] } "q" 0 10).1
      = builtState [sampleMsg] ∧
    (MessageService.query_messages (fun nodes _ _ => nodes.map (fun n => ⟨n, 1⟩))
        [sampleMsg] { messages := [] } "q" 0 10).2
      = .ok [{ text := "x said: hi", score := 1, message_id := "a1",
               author := "x", timestamp := "t1", channel_id := "chan" }] ∧
    (MessageService.query_messages (fun nodes _ _ => nodes.map (fun n => ⟨n, 1⟩))
        [] (builtState [sampleMsg]) "q2" 0 5).1
      = builtState [sampleMsg] := by
  have h := query_messages_lazy_init (fun nodes _ _ => nodes.map (fun n => ⟨n, 1⟩))
    [sampleMsg] { messages := [] } "q" 0 10 rfl rfl
  refine ⟨h.1, ?_, ?_⟩
  · rw [h.2.1]
    rfl
  · exact h.2.2 (builtState [sampleMsg]) [] "q2" 0 5 (by simp [builtState])

/-! ## Crawler (`src/services/discord_service.py` `DiscordService`)

`fetch_messages_from_guild` lists a guild's channels, keeps the text
channels (`type == 0`), and fetches each one's messages inside a
`try/except` that prints a warning and continues; only the channel listing
itself can propagate.  `fetch_messages_from_all_guilds` lists the guilds
and concatenates per-guild results, propagating guild- and channel-listing
failures.  The REST calls are the environment: result-valued functions,
`.error` standing for a raised exception.  Warnings (the `print` on a
per-channel failure) are collected into a list so the failure-isolation
contract is observable. -/

/-- The guild fields the crawler reads. -/
structure GuildModel where
  id : String
  name : String
deriving DecidableEq, Repr

/-- The channel fields the crawler reads (`type == 0` marks a text channel). -/
structure ChannelModel where
  id : String
  name : String
  type : Int
deriving DecidableEq, Repr

/-- The Discord REST surface the crawler calls, as fallible functions:
the guild listing, the per-guild channel listing, and the per-channel
message fetch (given the channel id and the `limit`). -/
structure DiscordEnv where
  guilds : Except String (List GuildModel)
  channels : String → Except String (List ChannelModel)
  messages : String → Nat → Except String (List MessageModel)

/-- The warning printed when fetching one channel's messages raises. -/
def channelWarning (ch : ChannelModel) (e : String) : String :=
  "Error fetching messages from channel " ++ ch.name ++ ": " ++ e

/-- `DiscordService.fetch_messages_from_guild`: on the text channels of the
guild, accumulate the messages of the succeeding fetches and one warning
per failing fetch; fails only if the channel listing fails. -/
def fetch_messages_from_guild (env : DiscordEnv) (guild_id : String) (limit : Nat) :
    Except String (List MessageModel × List String) := do
  let channels ← env.channels guild_id
  let text_channels := channels.filter (fun c => c.type == 0)
  pure (text_channels.foldl
    (fun acc ch =>
      match env.messages ch.id limit with
      | .ok ms => (acc.1 ++ ms, acc.2)
      | .error e => (acc.1, acc.2 ++ [channelWarning ch e]))
    ([], []))

/-- The per-guild accumulation step of `fetch_messages_from_all_guilds`:
crawl one guild and append its messages (and warnings) to the accumulator. -/
def crawlStep (env : DiscordEnv) (limit : Nat)
    (acc : List MessageModel × List String) (g : GuildModel) :
    Except String (List MessageModel × List String) := do
  let res ← fetch_messages_from_guild env g.id limit
  pure (acc.1 ++ res.1, acc.2 ++ res.2)

/-- `DiscordService.fetch_messages_from_all_guilds`: concatenation over all
guilds; a guild-listing or channel-listing failure propagates. -/
def fetch_messages_from_all_guilds (env : DiscordEnv) (limit_per_channel : Nat) :
    Except String (List MessageModel × List String) := do
  let guilds ← env.guilds
  guilds.foldlM (crawlStep env limit_per_channel)
    (([], []) : List MessageModel × List String)

theorem fetch_from_guild_error_iff (env : DiscordEnv) (guild_id : String) (limit : Nat) :
    (∃ e, fetch_messages_from_guild env guild_id limit = .error e) ↔
    (∃ e, env.channels guild_id = .error e) := by
  rw [fetch_messages_from_guild]
  cases env.channels guild_id with
  | error e => simp [Except.bind]
  | ok chs =>
    constructor
    · rintro ⟨e, he⟩
      exact Except.noConfusion he
    · rintro ⟨e, he⟩
      cases he

theorem all_guilds_foldlM_ok (env : DiscordEnv) (limit : Nat)
    (gs : List GuildModel)
    (hch : ∀ g ∈ gs, ∃ l, env.channels g.id = .ok l)
    (acc : List MessageModel × List String) :
    ∃ r, gs.foldlM (crawlStep env limit) acc = Except.ok r := by
  induction gs generalizing acc with
  | nil => exact ⟨acc, rfl⟩
  | cons g rest ih =>
    obtain ⟨l, hl⟩ := hch g (List.mem_cons_self g rest)
    have hok : ∃ p, fetch_messages_from_guild env g.id limit = .ok p := by
      rcases hg : fetch_messages_from_guild env g.id limit with e | p
      · exact absurd ((fetch_from_guild_error_iff env g.id limit).mp ⟨e, hg⟩)
          (by rw [hl]; rintro ⟨e2, he2⟩; cases he2)
      · exact ⟨p, rfl⟩
    obtain ⟨p, hp⟩ := hok
    rw [List.foldlM_cons]
    have hcs : crawlStep env limit acc g = .ok (acc.1 ++ p.1, acc.2 ++ p.2) := by
      rw [crawlStep, hp]
      rfl
    rw [hcs]
    exact ih (fun g2 hg2 => hch g2 (List.mem_cons_of_mem g hg2)) _

theorem all_guilds_foldlM_error (env : DiscordEnv) (limit : Nat)
    (gs : List GuildModel)
    (hbad : ∃ g ∈ gs, ∃ e, env.channels g.id = .error e)
    (acc : List MessageModel × List String) :
    ∃ e2, gs.foldlM (crawlStep env limit) acc = Except.error e2 := by
  induction gs generalizing acc with
  | nil =>
    obtain ⟨g, hmem, _⟩ := hbad
    exact absurd hmem (List.not_mem_nil g)
  | cons g0 rest ih =>
    rw [List.foldlM_cons]
    rcases hf : fetch_messages_from_guild env g0.id limit with e0 | p
    · refine ⟨e0, ?_⟩
      have hcs : crawlStep env limit acc g0 = .error e0 := by
        rw [crawlStep, hf]
        rfl
      rw [hcs]
      rfl
    · obtain ⟨g, hmem, e, hche⟩ := hbad
      rcases List.mem_cons.mp hmem with rfl | hmem2
      · obtain ⟨e2, he2⟩ := (fetch_from_guild_error_iff env g.id limit).mpr ⟨e, hche⟩
        rw [hf] at he2
        cases he2
      · have hcs : crawlStep env limit acc g0 = .ok (acc.1 ++ p.1, acc.2 ++ p.2) := by
          rw [crawlStep, hf]
          rfl
        rw [hcs]
        exact ih ⟨g, hmem2, e, hche⟩ _

/-- C1.  Crawl failure isolation.  First part: for a guild with three text
channels where the second fetch raises and the others succeed, the crawl
returns exactly the concatenation of the first and third channels' messages
together with one warning for the failing channel, without raising.  Second
part: `fetch_messages_from_all_guilds` fails exactly when the guild listing
fails or the channel listing of one of the listed guilds fails — never
because of a per-channel message failure. -/
theorem crawl_failure_isolation (env : DiscordEnv) (limit : Nat) :
    (∀ (guild_id : String) (c1 c2 c3 : ChannelModel) (m1 m3 : List MessageModel)
      (e : String),
      env.channels guild_id = .ok [c1, c2, c3] →
      c1.type = 0 → c2.type = 0 → c3.type = 0 →
      env.messages c1.id limit = .ok m1 →
      env.messages c2.id limit = .error e →
      env.messages c3.id limit = .ok m3 →
      fetch_messages_from_guild env guild_id limit
        = .ok (m1 ++ m3, [channelWarning c2 e])) ∧
    ((∃ e, fetch_messages_from_all_guilds env limit = .error e) ↔
      ((∃ e, env.guilds = .error e) ∨
        (∃ gs, env.guilds = .ok gs ∧ ∃ g ∈ gs, ∃ e, env.channels g.id = .error e))) := by
  constructor
  · intro guild_id c1 c2 c3 m1 m3 e hch ht1 ht2 ht3 hm1 hm2 hm3
    rw [fetch_messages_from_guild, hch]
    have hf : [c1, c2, c3].filter (fun c => c.type == 0) = [c1, c2, c3] := by
      simp [List.filter_cons, ht1, ht2, ht3]
    show Except.ok (([c1, c2, c3].filter (fun c => c.type == 0)).foldl
        (fun acc ch =>
          match env.messages ch.id limit with
          | .ok ms => (acc.1 ++ ms, acc.2)
          | .error e2 => (acc.1, acc.2 ++ [channelWarning ch e2]))
        ([], [])) = _
    rw [hf]
    simp only [List.foldl_cons, List.foldl_nil, hm1, hm2, hm3]
    simp
  · rw [fetch_messages_from_all_guilds]
    cases hg : env.guilds with
    | error e =>
      constructor
      · intro _
        exact Or.inl ⟨e, rfl⟩
      · intro _
        exact ⟨e, rfl⟩
    | ok gs =>
      constructor
      · rintro ⟨e, he⟩
        refine Or.inr ⟨gs, rfl, ?_⟩
        by_contra hno
        push_neg at hno
        have hch : ∀ g ∈ gs, ∃ l, env.channels g.id = .ok l := by
          intro g hmem
          rcases hc : env.channels g.id with e2 | l
          · exact absurd hc (by
              have := hno g hmem e2
              simpa using this)
          · exact ⟨l, rfl⟩
        obtain ⟨r, hr⟩ := all_guilds_foldlM_ok env limit gs hch ([], [])
        have he2 : gs.foldlM (crawlStep env limit)
            (([], []) : List MessageModel × List String) = .error e := he
        rw [hr] at he2
        cases he2
      · rintro (⟨e, he⟩ | ⟨gs2, hgs2, g, hgmem, e, hche⟩)
        · cases he
        · cases hgs2
          obtain ⟨e2, he2⟩ :=
            all_guilds_foldlM_error env limit gs ⟨g, hgmem, e, hche⟩ ([], [])
          exact ⟨e2, he2⟩

/-- C1 witness: a concrete environment with one guild and three text
channels whose middle fetch raises: the crawl returns the first and third
channels' messages with one warning, and the whole operation is error
exactly as characterized (here: not an error). -/
theorem crawl_failure_isolation_witness :
    fetch_messages_from_guild
        { guilds := .ok [{ id := "g1", name := "guild" }],
          channels := fun _ => .ok
            [{ id := "c1", name := "one", type := 0 },
             { id := "c2", name := "two", type := 0 },
             { id := "c3", name := "three", type := 0 }],
          messages := fun cid _ =>
            if cid = "c1" then .ok [sampleMsg]
            else if cid = "c2" then .error "boom"
            else .ok [sampleMsg] } "g1" 50
      = .ok ([sampleMsg] ++ [sampleMsg],
          [channelWarning { id := "c2", name := "two", type := 0 } "boom"]) := by
  exact (crawl_failure_isolation _ 50).1 "g1"
    { id := "c1", name := "one", type := 0 }
    { id := "c2", name := "two", type := 0 }
    { id := "c3", name := "three", type := 0 }
    [sampleMsg] [sampleMsg] "boom" rfl rfl rfl rfl rfl rfl rfl

/-! ## Authorization URL (`src/api/discord_client.py` `DiscordClient.get_authorization_url`,
`src/client/discord_api.py` `DiscordAPI.get_authorization_url`)

The code is a plain f-string: base authorize endpoint, then `client_id`,
`redirect_uri`, `response_type=code` and the space-joined scopes,
interpolated verbatim — no `urllib` quoting anywhere. -/

/-- `self.oauth_base`. -/
def oauth_base : String := "https://discord.com/oauth2"

/-- `get_authorization_url` (identical in both clients): pure f-string
concatenation over the configured `client_id` and `redirect_uri`. -/
def get_authorization_url (client_id redirect_uri : String) (scopes : List String) : String :=
  oauth_base ++ "/authorize"
    ++ "?client_id=" ++ client_id
    ++ "&redirect_uri=" ++ redirect_uri
    ++ "&response_type=code"
    ++ "&scope=" ++ String.intercalate " " scopes

/-- Uppercase hexadecimal digit. -/
def hexDigitChar (n : Nat) : Char :=
  ['0', '1', '2', '3', '4', '5', '6', '7', '8', '9',
   'A', 'B', 'C', 'D', 'E', 'F'].getD n '0'

/-- Percent-encoding of one character: unreserved characters pass through,
everything else becomes `%XX`. -/
def percentEncodeChar (c : Char) : List Char :=
  if c.isAlphanum || c = '-' || c = '_' || c = '.' || c = '~' then [c]
  else ['%', hexDigitChar (c.toNat / 16), hexDigitChar (c.toNat % 16)]

/-- Percent-encoding of a string. -/
def urlEscape (s : String) : String := String.mk (s.data.map percentEncodeChar).flatten

/-- Modelled from the spec: the spec says the query parameters are all
URL-escaped, so this variant percent-encodes the `client_id`, the
`redirect_uri` and the space-joined scope string before interpolation.
(No code in the repository escapes anything; this definition exists to be
compared against `get_authorization_url`.) -/
def spec_authorization_url (client_id redirect_uri : String) (scopes : List String) : String :=
  oauth_base ++ "/authorize"
    ++ "?client_id=" ++ urlEscape client_id
    ++ "&redirect_uri=" ++ urlEscape redirect_uri
    ++ "&response_type=code"
    ++ "&scope=" ++ urlEscape (String.intercalate " " scopes)

/-- C8 counterexample: at the concrete configuration (`client_id` `"1234"`,
the local callback redirect URI, three scopes) the code's URL differs from
the URL-escaped construction the claim describes, and it contains a literal
space character — which no URL-escaped query string contains. -/
theorem authorization_url_not_escaped_counterexample :
    get_authorization_url "1234" "http://localhost:8000/oauth2/callback"
        ["identify", "guilds", "messages.read"]
      ≠ spec_authorization_url "1234" "http://localhost:8000/oauth2/callback"
          ["identify", "guilds", "messages.read"] ∧
    (' ' : Char) ∈ (get_authorization_url "1234" "http://localhost:8000/oauth2/callback"
        ["identify", "guilds", "messages.read"]).data ∧
    (' ' : Char) ∉ (spec_authorization_url "1234" "http://localhost:8000/oauth2/callback"
        ["identify", "guilds", "messages.read"]).data := by
  refine ⟨by decide, by decide, by decide⟩

/-- All chunks of `l` delimited by `sep` (`str.split(sep)` on characters). -/
def splitOnChar (sep : Char) : List Char → List (List Char)
  | [] => [[]]
  | c :: cs =>
    if c = sep then [] :: splitOnChar sep cs
    else
      match splitOnChar sep cs with
      | [] => [[c]]
      | g :: gs => (c :: g) :: gs

theorem splitOnChar_not_mem {sep : Char} {l : List Char} (h : sep ∉ l) :
    splitOnChar sep l = [l] := by
  induction l with
  | nil => rfl
  | cons c cs ih =>
    have hc : c ≠ sep := fun hc2 => h (hc2 ▸ List.mem_cons_self c cs)
    have ih2 := ih (fun hm => h (List.mem_cons_of_mem c hm))
    simp [splitOnChar, hc, ih2]

theorem splitOnChar_sep_cons (sep : Char) (l : List Char) :
    splitOnChar sep (sep :: l) = [] :: splitOnChar sep l := by
  simp [splitOnChar]

theorem splitOnChar_append_left {sep : Char} {l1 l2 g : List Char}
    {gs : List (List Char)} (h : sep ∉ l1) (hsplit : splitOnChar sep l2 = g :: gs) :
    splitOnChar sep (l1 ++ l2) = (l1 ++ g) :: gs := by
  induction l1 with
  | nil => simpa using hsplit
  | cons c cs ih =>
    have hc : c ≠ sep := fun hc2 => h (hc2 ▸ List.mem_cons_self c cs)
    have ih2 := ih (fun hm => h (List.mem_cons_of_mem c hm))
    simp [splitOnChar, hc, ih2]

/-- C8 (amended).  `get_authorization_url` returns exactly the base
authorize endpoint followed by the four query parameters — the client id,
the redirect URI, `response_type=code`, and the space-joined scope list —
interpolated verbatim with no URL-escaping, and performs no side effects
(it is pure string construction): splitting the result at `&` yields
exactly those four components, whenever the interpolated values contain no
`&` themselves. -/
theorem authorization_url_structure (cid ruri : String) (scopes : List String)
    (h1 : ('&' : Char) ∉ cid.data) (h2 : ('&' : Char) ∉ ruri.data)
    (h3 : ('&' : Char) ∉ (String.intercalate " " scopes).data) :
    splitOnChar '&' (get_authorization_url cid ruri scopes).data
      = [("https://discord.com/oauth2/authorize?client_id=" ++ cid).data,
         ("redirect_uri=" ++ ruri).data,
         ("response_type=code" : String).data,
         ("scope=" ++ String.intercalate " " scopes).data] := by
  have hdata : (get_authorization_url cid ruri scopes).data
      = "https://discord.com/oauth2/authorize?client_id=".data
          ++ (cid.data
            ++ ('&' :: ("redirect_uri=".data
              ++ (ruri.data
                ++ ('&' :: ("response_type=code".data
                  ++ ('&' :: ("scope=".data
                    ++ (String.intercalate " " scopes).data)))))))) := by
    simp only [get_authorization_url, oauth_base, String.data_append, List.append_assoc]
    rfl
  have s0 : splitOnChar '&' ("scope=".data ++ (String.intercalate " " scopes).data)
      = [("scope=".data ++ (String.intercalate " " scopes).data)] :=
    splitOnChar_not_mem (by
      rw [List.mem_append]
      rintro (hm | hm)
      · exact absurd hm (by decide)
      · exact h3 hm)
  have s1 : splitOnChar '&' ("response_type=code".data
        ++ ('&' :: ("scope=".data ++ (String.intercalate " " scopes).data)))
      = "response_type=code".data
          :: [("scope=".data ++ (String.intercalate " " scopes).data)] := by
    rw [splitOnChar_append_left (by decide) (splitOnChar_sep_cons _ _), s0]
    simp
  have s2 : splitOnChar '&' (ruri.data ++ ('&' :: ("response_type=code".data
        ++ ('&' :: ("scope=".data ++ (String.intercalate " " scopes).data)))))
      = ruri.data :: "response_type=code".data
          :: [("scope=".data ++ (String.intercalate " " scopes).data)] := by
    rw [splitOnChar_append_left h2 (splitOnChar_sep_cons _ _), s1]
    simp
  have s3 : splitOnChar '&' ("redirect_uri=".data ++ (ruri.data
        ++ ('&' :: ("response_type=code".data
          ++ ('&' :: ("scope=".data ++ (String.intercalate " " scopes).data))))))
      = ("redirect_uri=".data ++ ruri.data) :: "response_type=code".data
          :: [("scope=".data ++ (String.intercalate " " scopes).data)] :=
    splitOnChar_append_left (by decide) s2
  have s4 : splitOnChar '&' (cid.data ++ ('&' :: ("redirect_uri=".data ++ (ruri.data
        ++ ('&' :: ("response_type=code".data
          ++ ('&' :: ("scope=".data ++ (String.intercalate " " scopes).data))))))))
      = cid.data :: ("redirect_uri=".data ++ ruri.data) :: "response_type=code".data
          :: [("scope=".data ++ (String.intercalate " " scopes).data)] := by
    rw [splitOnChar_append_left h1 (splitOnChar_sep_cons _ _), s3]
    simp
  have s5 := splitOnChar_append_left
    (show ('&' : Char) ∉ "https://discord.com/oauth2/authorize?client_id=".data by decide) s4
  rw [hdata, s5]
  simp [String.data_append]

/-- C8 witness: the four components at a concrete configuration. -/
theorem authorization_url_structure_witness :
    splitOnChar '&' (get_authorization_url "1234"
        "http://localhost:8000/oauth2/callback" ["identify", "guilds"]).data
      = [("https://discord.com/oauth2/authorize?client_id=" ++ "1234").data,
         ("redirect_uri=" ++ "http://localhost:8000/oauth2/callback").data,
         ("response_type=code" : String).data,
         ("scope=" ++ String.intercalate " " ["identify", "guilds"]).data] :=
  authorization_url_structure "1234" "http://localhost:8000/oauth2/callback"
    ["identify", "guilds"] (by decide) (by decide) (by decide)

end DQB
